import Mathlib

/-!
Verification development for the `todo-tui` repository.

The repository is a terminal todo-list manager (Rust): a data model
(`src/model.rs`), a SQLite persistence layer (`src/database.rs`) and an
interactive state machine (`src/main.rs`).  This file gives a shallow
embedding of the parts of the program the specification talks about:
calendar dates and their textual formats, the database rows and the five
parameterized queries, the display sort, and the view/input state machine,
together with theorems settling the specification's claims.
-/

namespace TodoTui

/-! ### Calendar dates

Model of `chrono::NaiveDate` as a year/month/day triple.  `chrono`'s `Ord`
instance is chronological order, which on valid dates is lexicographic on
`(year, month, day)`; dates in this program never go below year 0, so years
are modelled as `Nat`. -/

structure Date where
  year : Nat
  month : Nat
  day : Nat
deriving DecidableEq

/-- Chronological (lexicographic) order on dates, as `chrono`'s `Ord`. -/
def Date.le (a b : Date) : Bool :=
  if a.year = b.year then
    if a.month = b.month then a.day ≤ b.day
    else a.month < b.month
  else a.year < b.year

/-- Proleptic Gregorian leap year, as `chrono` computes it. -/
def Date.is_leap_year (y : Nat) : Bool :=
  (y % 4 = 0 && y % 100 ≠ 0) || y % 400 = 0

/-- Number of days of month `m` of year `y` in the Gregorian calendar. -/
def Date.days_in_month (y m : Nat) : Nat :=
  if m = 2 then (if Date.is_leap_year y then 29 else 28)
  else if m = 4 ∨ m = 6 ∨ m = 9 ∨ m = 11 then 30
  else 31

/-- A valid calendar date: the dates `chrono::NaiveDate` can represent
(restricted to non-negative years). -/
def Date.valid (d : Date) : Prop :=
  1 ≤ d.month ∧ d.month ≤ 12 ∧ 1 ≤ d.day ∧ d.day ≤ Date.days_in_month d.year d.month

instance (d : Date) : Decidable d.valid := by unfold Date.valid; infer_instance

/-- The next calendar day. -/
def Date.succ_day (d : Date) : Date :=
  if d.day < Date.days_in_month d.year d.month then ⟨d.year, d.month, d.day + 1⟩
  else if d.month < 12 then ⟨d.year, d.month + 1, 1⟩
  else ⟨d.year + 1, 1, 1⟩

/-- Adding `n` days to a date, one calendar day at a time. -/
def Date.add_days (d : Date) : Nat → Date
  | 0 => d
  | n + 1 => Date.add_days d.succ_day n

/-- Day number of a date in the proleptic Gregorian calendar (days since
0000-03-01, the standard civil-from-days era arithmetic), used for
`chrono`'s range check.  Faithful for year ≥ 1; this program's dates
start at the current date. -/
def Date.day_number (dt : Date) : Nat :=
  let y := if dt.month ≤ 2 then dt.year - 1 else dt.year
  let era := y / 400
  let yoe := y % 400
  let mp := (dt.month + 9) % 12
  let doy := (153 * mp + 2) / 5 + (dt.day - 1)
  let doe := yoe * 365 + yoe / 4 - yoe / 100 + doy
  era * 146097 + doe

/-- The day number of `chrono::NaiveDate::MAX` (+262143-12-31). -/
def max_day_number : Nat := Date.day_number ⟨262143, 12, 31⟩

/-- Model of `chrono`'s `checked_add_days` (as called on `Local::now()`
in the due-date input handler): `none` — on which the source's
`.expect("in range")` panics — exactly when the result would pass
`NaiveDate::MAX`. -/
def Date.checked_add_days (d : Date) (n : Nat) : Option Date :=
  if d.day_number + n ≤ max_day_number then some (d.add_days n) else none

/-! ### Textual date formats

`database.rs` stores dates as `NaiveDate::to_string()` text (format
`%Y-%m-%d`, zero padded) and reads them back with
`NaiveDate::parse_from_str(s, "%Y-%m-%d")`, which fails unless the whole
input is consumed.  `toggle_todo_completion` instead stores
`Local::now().naive_local().to_string()`, a `NaiveDateTime` rendering
`%Y-%m-%d %H:%M:%S` (possibly with fractional seconds appended). -/

/-- The ASCII digit character for `n < 10`. -/
def digit_char (n : Nat) : Char := Char.ofNat (48 + n)

/-- Zero-padded 4-digit rendering (for years `≤ 9999`, as `%Y`). -/
def pad4 (n : Nat) : List Char :=
  [digit_char (n / 1000 % 10), digit_char (n / 100 % 10),
   digit_char (n / 10 % 10), digit_char (n % 10)]

/-- Zero-padded 2-digit rendering (as `%m`, `%d`, `%H`, `%M`, `%S`). -/
def pad2 (n : Nat) : List Char :=
  [digit_char (n / 10 % 10), digit_char (n % 10)]

/-- The characters of `NaiveDate::to_string()` (`%Y-%m-%d`). -/
def date_chars (d : Date) : List Char :=
  pad4 d.year ++ '-' :: (pad2 d.month ++ '-' :: pad2 d.day)

/-- `NaiveDate::to_string()`. -/
def date_to_string (d : Date) : String := String.mk (date_chars d)

/-- Model of `chrono::NaiveDateTime` (sub-second part omitted; it only
lengthens the rendered string further). -/
structure DateTime where
  date : Date
  hour : Nat
  minute : Nat
  second : Nat
deriving DecidableEq

/-- `NaiveDateTime::to_string()` (`%Y-%m-%d %H:%M:%S`). -/
def naive_datetime_to_string (dt : DateTime) : String :=
  String.mk (date_chars dt.date ++
    ' ' :: (pad2 dt.hour ++ ':' :: (pad2 dt.minute ++ ':' :: pad2 dt.second)))

/-- Greedily take up to `n` leading ASCII digits (chrono's bounded
`scan::number`). -/
def take_digits : Nat → List Char → List Char × List Char
  | 0, cs => ([], cs)
  | _ + 1, [] => ([], [])
  | n + 1, c :: cs =>
    if c.isDigit then
      let p := take_digits n cs
      (c :: p.1, p.2)
    else ([], c :: cs)

/-- Greedily take all leading ASCII digits (chrono's unbounded
`scan::number`, used for signed years). -/
def span_digits : List Char → List Char × List Char
  | [] => ([], [])
  | c :: cs =>
    if c.isDigit then
      let p := span_digits cs
      (c :: p.1, p.2)
    else ([], c :: cs)

/-- Numeric value of a digit run. -/
def digits_to_nat (ds : List Char) : Nat :=
  ds.foldl (fun a c => a * 10 + (c.toNat - 48)) 0

/-- The `-%m-%d` tail (with the already-scanned year digits): months and
days are 1–2 greedy digits, the whole input must be consumed (chrono
errors with `TOO_LONG` on trailing characters), and the date must be a
real calendar date. -/
def parse_ymd_fields (yds : List Char) (rest : List Char) : Option Date :=
  if yds = [] then none
  else
    match rest with
    | '-' :: r1 =>
      let pm := take_digits 2 r1
      if pm.1 = [] then none
      else
        match pm.2 with
        | '-' :: r3 =>
          let pd := take_digits 2 r3
          if pd.1 = [] then none
          else if pd.2 ≠ [] then none
          else
            let y := digits_to_nat yds
            let m := digits_to_nat pm.1
            let d := digits_to_nat pd.1
            if 1 ≤ m ∧ m ≤ 12 ∧ 1 ≤ d ∧ d ≤ Date.days_in_month y m then
              some ⟨y, m, d⟩
            else none
        | _ => none
    | _ => none

/-- Model of `NaiveDate::parse_from_str(s, "%Y-%m-%d")`: `%Y` scans up to
4 digits, or, after a `+` sign, arbitrarily many (so the `+YYYYY-MM-DD`
renderings of years past 9999, which this program can store, parse back);
`%m`/`%d` scan 1–2 digits; the whole input must be consumed.  Negative
years (a leading `-`), which this program's dates can never reach, are
outside the model and map to `none`. -/
def parse_date_ymd (s : String) : Option Date :=
  match s.data with
  | c :: rest =>
    if c = '+' then
      let py := span_digits rest
      parse_ymd_fields py.1 py.2
    else
      let py := take_digits 4 (c :: rest)
      parse_ymd_fields py.1 py.2
  | [] => none

/-! ### Data model (`src/model.rs`) -/

/-- `model::Todo`. -/
structure Todo where
  id : Option Nat
  list_id : Nat
  title : String
  todo_descr : Option String
  due_date : Option Date
  completed : Bool
  completed_date : Option Date
  dependencies : List Nat
deriving DecidableEq

/-- `model::TodoList`. -/
structure TodoList where
  id : Option Nat
  title : String
deriving DecidableEq

/-! ### Database rows and queries (`src/database.rs`)

A row of the `todos` table, with the column values as SQLite holds them:
`id INTEGER PRIMARY KEY` is always present on fetched rows, dates are
`TEXT` or `NULL`.  The store is a list of rows. -/

structure TodoRow where
  id : Nat
  list_id : Nat
  title : String
  row_descr : Option String
  due_date : Option String
  completed : Bool
  completed_date : Option String
deriving DecidableEq

/-- The row parser shared by `fetch_todos` and `fetch_incomplete_todos`:
dates are parsed with `%Y-%m-%d` and silently dropped (`.ok()` then
`and_then`) when parsing fails; `dependencies` is always left empty. -/
def row_to_todo (r : TodoRow) : Todo :=
  { id := some r.id
    list_id := r.list_id
    title := r.title
    todo_descr := r.row_descr
    due_date := r.due_date.bind (fun s => parse_date_ymd s)
    completed := r.completed
    completed_date := r.completed_date.bind (fun s => parse_date_ymd s)
    dependencies := [] }

/-- `database::toggle_todo_completion`: one SQL `UPDATE` setting
`completed` and `completed_date` on the row with the given id.  The stored
completion date is `Local::now().naive_local().to_string()` — a
`NaiveDateTime` string — when completing, `NULL` when un-completing. -/
def toggle_todo_completion (now : DateTime) (todo_id : Nat) (completed : Bool)
    (store : List TodoRow) : List TodoRow :=
  store.map (fun r =>
    if r.id = todo_id then
      { r with
        completed := completed
        completed_date := if completed then some (naive_datetime_to_string now) else none }
    else r)

/-- `database::fetch_todos`: `SELECT * FROM todos WHERE list_id = ?`,
rows parsed by `row_to_todo`. -/
def fetch_todos (list_id : Nat) (store : List TodoRow) : List Todo :=
  (store.filter (fun r => r.list_id = list_id)).map row_to_todo

/-! ### SQLite text comparison

The one-shot query `SELECT * FROM todos WHERE completed = false and
due_date <= ?` compares the `due_date` TEXT column against the parameter
`date.format("%Y-%m-%d")` with SQLite's default BINARY collation: a
bytewise comparison, with the shorter string smaller when one is a prefix
of the other.  On the ASCII strings this program stores, bytewise equals
codepoint-wise. `NULL <= text` is NULL, so rows without a due date are
never selected. -/

/-- Bytewise strict order on character lists (SQLite BINARY collation). -/
def text_lt : List Char → List Char → Bool
  | [], [] => false
  | [], _ :: _ => true
  | _ :: _, [] => false
  | a :: as, b :: bs =>
    if a.toNat = b.toNat then text_lt as bs else a.toNat < b.toNat

/-- SQLite `<=` on TEXT values. -/
def sqlite_text_le (s t : String) : Bool := !(text_lt t.data s.data)

/-- `database::fetch_incomplete_todos`: the one-shot query
`SELECT * FROM todos WHERE completed = false and due_date <= ?`, rows
parsed by `row_to_todo`. -/
def fetch_incomplete_todos (date : Date) (store : List TodoRow) : List Todo :=
  (store.filter (fun r =>
    !r.completed &&
      match r.due_date with
      | some s => sqlite_text_le s (date_to_string date)
      | none => false)).map row_to_todo

/-! ### Display sort (`get_todos` in `src/main.rs`)

`get_todos` applies three successive `Vec::sort_by_key` passes:
by `due_date`, then by `!due_date.is_some()`, then by `completed`.
`sort_by_key` is a stable sort; any stable sort of a list by a total
preorder yields the same list, so it is embedded as `List.mergeSort`
(stable, see `List.sublist_mergeSort`) with the key-comparison as the
`le` argument. -/

/-- Rust `Ord` on `bool`: `false < true`. -/
def bool_le (a b : Bool) : Bool := !a || b

/-- Rust `Ord` on `Option<NaiveDate>`: `None` is smaller than any
`Some`, and `Some`s compare by date. -/
def opt_date_le : Option Date → Option Date → Bool
  | none, _ => true
  | some _, none => false
  | some a, some b => Date.le a b

/-- First sort pass key comparison: `sort_by_key(|t| t.due_date)`. -/
def due_key_le (a b : Todo) : Bool := opt_date_le a.due_date b.due_date

/-- Second sort pass key comparison: `sort_by_key(|t| !t.due_date.is_some())`. -/
def no_due_key_le (a b : Todo) : Bool :=
  bool_le (!a.due_date.isSome) (!b.due_date.isSome)

/-- Third sort pass key comparison: `sort_by_key(|t| t.completed)`. -/
def completed_key_le (a b : Todo) : Bool := bool_le a.completed b.completed

/-- The three stable sort passes of `get_todos` (the fetched list is
sorted by `due_date`, then by absence of a due date, then by
`completed`). -/
def display_sort (todos : List Todo) : List Todo :=
  ((todos.mergeSort due_key_le).mergeSort no_due_key_le).mergeSort completed_key_le

/-- `get_todos`: fetch the todos of a list and sort them for display. -/
def get_todos (list_id : Nat) (store : List TodoRow) : List Todo :=
  display_sort (fetch_todos list_id store)

/-- Lexicographic combination of two total preorders: strictly-less by
`le2`, or tied under `le2` and ordered by `le1`. -/
def lex_le (le2 le1 : α → α → Bool) (a b : α) : Bool :=
  if le2 a b then (if le2 b a then le1 a b else true) else false

/-- The composite display order stated by the specification: one sort by
the key `(completed ascending, has-no-due-date ascending, due_date
ascending)`, ties keeping fetch order.  (Written from the specification's
words, to be compared with `display_sort`.) -/
def composite_le (a b : Todo) : Bool :=
  lex_le completed_key_le (lex_le no_due_key_le due_key_le) a b

/-- The specification's single-pass display sort. -/
def display_sort_spec (todos : List Todo) : List Todo :=
  todos.mergeSort composite_le

/-! ### The view/input state machine (`src/main.rs`)

`run` loops: it re-fetches `lists` and (for the selected list) `todos`,
renders, polls for a key and dispatches on `state.state`.  The dispatch
is embedded as a step function over the transient `State` record, taking
the freshly fetched `lists`/`todos` sequences and the current date as the
environment of one loop iteration.  Persistence calls become `Effect`
values; `.expect`/index panics become the `panic` outcome; `q` in the
browsing screen becomes `exit`. -/

/-- `InputField`. -/
inductive InputField
  | title
  | descr
  | dueDate
deriving DecidableEq

/-- `AppState`. -/
inductive AppState
  | list (detail : Option Nat)
  | create (field : Option InputField) (edit_todo_index : Option Nat)
  | createList (field : Option InputField)
deriving DecidableEq

/-- The transient `State` record (the two `ListState`s are embedded as
their optional selected index). -/
structure UiState where
  list_title : String
  todo_descr : String
  todo_title : String
  todo_due_date : Option Date
  appstate : AppState
  input : String
  lists_cursor : Option Nat
  todos_cursor : Option Nat
  selecting_list : Bool
deriving DecidableEq

/-- Keyboard events the dispatch distinguishes. -/
inductive Key
  | char (c : Char)
  | enter
  | backspace
  | esc
  | other
deriving DecidableEq

/-- Persistence side effects issued by one dispatch. -/
inductive Effect
  | delete_list_eff (id : Nat)
  | delete_todo_eff (id : Nat)
  | toggle_completion_eff (id : Nat) (completed : Bool)
  | update_todo_eff (t : Todo)
  | add_todo_eff (t : Todo)
  | add_list_eff (title : String)
deriving DecidableEq

/-- Outcome of one dispatch: continue with a new state and pending
persistence effects, leave the loop (`q` while browsing), or abort on a
violated `.expect`/index precondition. -/
inductive StepResult
  | next (s : UiState) (effs : List Effect)
  | exit
  | panic
deriving DecidableEq

/-- `usize` subtraction by one with release-mode wrap-around
(`todos.len() - 1` underflows when the vector is empty). -/
def usize_sub_one (n : Nat) : Nat := (n + (2 ^ 64 - 1)) % 2 ^ 64

/-- `todos_move_up`. -/
def todos_move_up (s : UiState) : UiState :=
  match s.todos_cursor with
  | some v =>
    { s with todos_cursor := match v with | 0 => none | v => some (v - 1) }
  | none => { s with todos_cursor := some 0 }

/-- `lists_move_up`. -/
def lists_move_up (s : UiState) : UiState :=
  match s.lists_cursor with
  | some v =>
    { s with lists_cursor := match v with | 0 => none | v => some (v - 1) }
  | none => { s with lists_cursor := some 0 }

/-- `todos_move_down`. -/
def todos_move_down (s : UiState) (todos : List Todo) : UiState :=
  match s.todos_cursor with
  | some v =>
    { s with todos_cursor := some (min (v + 1) (usize_sub_one todos.length)) }
  | none => { s with todos_cursor := some 0 }

/-- `lists_move_down`. -/
def lists_move_down (s : UiState) (lists : List TodoList) : UiState :=
  match s.lists_cursor with
  | some v =>
    { s with lists_cursor := some (min (v + 1) (usize_sub_one lists.length)) }
  | none => { s with lists_cursor := some 0 }

/-- `toggle_todo` (the UI side of the completion toggle): issues
`toggle_todo_completion(id, !completed)` for the selected todo. -/
def toggle_todo (s : UiState) (todos : List Todo) : StepResult :=
  match s.todos_cursor with
  | some todo_index =>
    match todos[todo_index]? with
    | some t =>
      match t.id with
      | some id => .next s [.toggle_completion_eff id (!t.completed)]
      | none => .panic
    | none => .panic
  | none => .next s []

/-- Rust `String::pop`: drop the last character. -/
def string_pop (s : String) : String := String.mk s.data.dropLast

/-- Model of `str::parse::<u64>`: an optional `+` sign followed by at
least one ASCII digit, value below `2^64` (overflow is an error). -/
def parse_u64 (s : String) : Option Nat :=
  let digits := match s.data with
    | '+' :: rest => rest
    | cs => cs
  if digits ≠ [] ∧ digits.all Char.isDigit then
    let v := digits.foldl (fun a c => a * 10 + (c.toNat - 48)) 0
    if v < 2 ^ 64 then some v else none
  else none

/-- `save_todo`: the new `Todo` built from the staged fields
(`completed = false`, no completion date, empty dependencies). -/
def save_todo (s : UiState) (list_id : Nat) : Todo :=
  { id := none
    list_id := list_id
    title := s.todo_title
    todo_descr := some s.todo_descr
    due_date := s.todo_due_date
    completed := false
    completed_date := none
    dependencies := [] }

/-- The `v` arm of the browsing dispatch: toggle the details panel. -/
def browse_detail (s : UiState) (detail : Option Nat) : StepResult :=
  match detail with
  | some _ => .next { s with appstate := .list none } []
  | none =>
    match s.todos_cursor with
    | some index => .next { s with appstate := .list (some index) } []
    | none => .next s []

/-- The `E` arm: copy the selected todo into the edit buffers and enter
the form in edit mode. -/
def browse_edit (todos : List Todo) (s : UiState) : StepResult :=
  if s.lists_cursor.isSome then
    match s.todos_cursor with
    | some edit_todo_index =>
      match todos[edit_todo_index]? with
      | some todo =>
        .next { s with
          todo_descr := todo.todo_descr.getD ""
          input := todo.title
          todo_title := todo.title
          todo_due_date := todo.due_date
          appstate := .create (some .title) (some edit_todo_index) } []
      | none => .panic
    | none => .next s []
  else .next s []

/-- The `N` arm: enter the form in creation mode if a list is selected. -/
def browse_new (s : UiState) : StepResult :=
  if s.lists_cursor.isSome then
    .next { s with appstate := .create (some .title) none } []
  else .next s []

/-- The `D` arm: delete the selected list (clearing both cursors) or the
selected todo, depending on the focused pane. -/
def browse_delete (lists : List TodoList) (todos : List Todo) (s : UiState) :
    StepResult :=
  match s.selecting_list with
  | true =>
    match s.lists_cursor with
    | some list_index =>
      match lists[list_index]? with
      | some l =>
        match l.id with
        | some id =>
          .next { s with lists_cursor := none, todos_cursor := none }
            [.delete_list_eff id]
        | none => .panic
      | none => .panic
    | none => .next s []
  | false =>
    match s.todos_cursor with
    | some todo_index =>
      match todos[todo_index]? with
      | some t =>
        match t.id with
        | some id => .next s [.delete_todo_eff id]
        | none => .panic
      | none => .panic
    | none => .next s []

/-- The `h` arm: focus back to the lists pane, clearing the todos cursor. -/
def browse_focus_lists (s : UiState) : StepResult :=
  match s.selecting_list with
  | true => .next s []
  | false =>
    .next { s with
      selecting_list := true
      appstate := .list none
      todos_cursor := none } []

/-- The `l` arm: focus the todos pane (fetching the selected list's todos
and selecting the first when non-empty), or toggle the selected todo when
the todos pane is already focused.  The re-fetched todos of the selected
list are the `todos` this iteration already fetched for the same cursor. -/
def browse_focus_todos (lists : List TodoList) (todos : List Todo) (s : UiState) :
    StepResult :=
  match s.selecting_list with
  | true =>
    match s.lists_cursor with
    | some index =>
      match lists[index]? with
      | some l =>
        match l.id with
        | some _ =>
          .next { s with
            selecting_list := false
            todos_cursor := if todos.length > 0 then some 0 else s.todos_cursor } []
        | none => .panic
      | none => .panic
    | none => .next { s with selecting_list := false } []
  | false => toggle_todo s todos

/-- The space arm: toggle the selected todo when the todos pane is
focused. -/
def browse_space (todos : List Todo) (s : UiState) : StepResult :=
  match s.selecting_list with
  | true => .next s []
  | false => toggle_todo s todos

/-- Dispatch in `AppState::List(detail)` (the browsing screen).  The
source matches on character literals; the equivalent equality chain over
the per-arm handlers above is used here. -/
def step_browse (lists : List TodoList) (todos : List Todo)
    (s : UiState) (k : Key) (detail : Option Nat) : StepResult :=
  match k with
  | .char c =>
    if c = 'q' then .exit
    else if c = 'v' then browse_detail s detail
    else if c = 'E' then browse_edit todos s
    else if c = 'N' then browse_new s
    else if c = 'L' then .next { s with appstate := .createList (some .title) } []
    else if c = 'D' then browse_delete lists todos s
    else if c = 'j' then
      match s.selecting_list with
      | true => .next (lists_move_down s lists) []
      | false => .next (todos_move_down s todos) []
    else if c = 'k' then
      match s.selecting_list with
      | true => .next (lists_move_up s) []
      | false => .next (todos_move_up s) []
    else if c = 'h' then browse_focus_lists s
    else if c = 'l' then browse_focus_todos lists todos s
    else if c = ' ' then browse_space todos s
    else .next s []
  | .enter => .next s []
  | .backspace => .next s []
  | .esc => .next s []
  | .other => .next s []

/-- Dispatch in `AppState::Create(field, edit_todo_index)` (the todo
form). -/
def step_create (lists : List TodoList) (todos : List Todo) (now : Date)
    (s : UiState) (k : Key) (field : Option InputField)
    (edit_todo_index : Option Nat) : StepResult :=
  match field with
  | some f =>
    match k with
    | .char c => .next { s with input := s.input ++ String.mk [c] } []
    | .backspace => .next { s with input := string_pop s.input } []
    | .esc =>
      .next { s with input := "", appstate := .create none edit_todo_index } []
    | .enter =>
      match f with
      | .title =>
        .next { s with
          todo_title := s.input
          input := ""
          appstate := .create (some .descr) edit_todo_index } []
      | .descr =>
        .next { s with
          todo_descr := s.input
          input := ""
          appstate := .create (some .dueDate) edit_todo_index } []
      | .dueDate =>
        match parse_u64 s.input with
        | some v =>
          match now.checked_add_days v with
          | some due =>
            .next { s with
              todo_due_date := some due
              input := ""
              appstate := .create none edit_todo_index } []
          | none => .panic
        | none =>
          .next { s with
            todo_due_date := none
            input := ""
            appstate := .create none edit_todo_index } []
    | .other => .next s []
  | none =>
    match k with
    | .esc => .next { s with appstate := .list none } []
    | .char c =>
      if c = 'q' then .next { s with appstate := .list none } []
      else if c = 'D' then
        .next { s with appstate := .create (some .dueDate) edit_todo_index } []
      else if c = 'd' then
        .next { s with
          appstate := .create (some .descr) edit_todo_index
          input := s.todo_descr } []
      else if c = 't' then
        .next { s with
          appstate := .create (some .title) edit_todo_index
          input := s.todo_title } []
      else if c = 's' then
        let cleared := fun (s' : UiState) =>
          { s' with
            todo_title := ""
            todo_descr := ""
            todo_due_date := none
            appstate := AppState.list none }
        match edit_todo_index with
        | some index =>
          match todos[index]? with
          | some t =>
            let updated_todo :=
              { t with
                due_date := s.todo_due_date
                title := s.todo_title
                todo_descr := some s.todo_descr }
            .next (cleared s) [.update_todo_eff updated_todo]
          | none => .panic
        | none =>
          match s.lists_cursor with
          | some li =>
            match lists[li]? with
            | some l =>
              match l.id with
              | some list_id => .next (cleared s) [.add_todo_eff (save_todo s list_id)]
              | none => .panic
            | none => .panic
          | none => .panic
      else .next s []
    | .enter => .next s []
    | .backspace => .next s []
    | .other => .next s []

/-- Dispatch in `AppState::CreateList(field)` (the list form). -/
def step_create_list (s : UiState) (k : Key) (field : Option InputField) :
    StepResult :=
  match field with
  | some f =>
    match k with
    | .char c => .next { s with input := s.input ++ String.mk [c] } []
    | .backspace => .next { s with input := string_pop s.input } []
    | .esc => .next { s with input := "", appstate := .createList none } []
    | .enter =>
      match f with
      | .title =>
        .next { s with
          list_title := s.input
          input := ""
          appstate := .createList none } []
      | .descr => .next s []
      | .dueDate => .next s []
    | .other => .next s []
  | none =>
    match k with
    | .esc => .next { s with appstate := .list none } []
    | .char c =>
      if c = 'q' then .next { s with appstate := .list none } []
      else if c = 't' then
        .next { s with appstate := .createList (some .title) } []
      else if c = 's' then
        .next { s with input := "", appstate := .list none }
          [.add_list_eff s.list_title]
      else .next s []
    | .enter => .next s []
    | .backspace => .next s []
    | .other => .next s []

/-- One dispatch of the event loop of `run`. -/
def step (lists : List TodoList) (todos : List Todo) (now : Date)
    (s : UiState) (k : Key) : StepResult :=
  match s.appstate with
  | .list detail => step_browse lists todos s k detail
  | .create field edit_todo_index => step_create lists todos now s k field edit_todo_index
  | .createList field => step_create_list s k field

/-- The initial `State` built in `main`. -/
def init_state : UiState :=
  { list_title := ""
    todo_descr := ""
    todo_title := ""
    todo_due_date := none
    appstate := .list none
    input := ""
    lists_cursor := none
    todos_cursor := none
    selecting_list := true }

/-- States reachable by the event loop: the initial state, closed under
dispatch with arbitrary fetched sequences, dates and keys. -/
inductive Reachable : UiState → Prop
  | init : Reachable init_state
  | step (lists : List TodoList) (todos : List Todo) (now : Date)
      (s s' : UiState) (k : Key) (effs : List Effect) :
      Reachable s → step lists todos now s k = .next s' effs → Reachable s'

/-! ### Derived operations and sample data used by the theorems -/

/-- The toggle operation on a stored todo as the UI invokes it: `toggle_todo`
reads the fetched todo's `completed` flag and calls
`toggle_todo_completion(id, !completed)` (the fetched flag equals the row's
flag, see `row_to_todo`). -/
def toggle_op (now : DateTime) (id : Nat) (store : List TodoRow) : List TodoRow :=
  match store.find? (fun r => r.id = id) with
  | some r => toggle_todo_completion now id (!r.completed) store
  | none => store

/-- A navigation command for one pane. -/
inductive MoveCmd
  | up
  | down
deriving DecidableEq

/-- Run a sequence of `j`/`k` navigation commands on the todos pane. -/
def run_todo_moves (todos : List Todo) : UiState → List MoveCmd → UiState
  | s, [] => s
  | s, .up :: rest => run_todo_moves todos (todos_move_up s) rest
  | s, .down :: rest => run_todo_moves todos (todos_move_down s todos) rest

/-- Run a sequence of `j`/`k` navigation commands on the lists pane. -/
def run_list_moves (lists : List TodoList) : UiState → List MoveCmd → UiState
  | s, [] => s
  | s, .up :: rest => run_list_moves lists (lists_move_up s) rest
  | s, .down :: rest => run_list_moves lists (lists_move_down s lists) rest

/-- The membership criterion the specification states for the one-shot
query: not completed, and due on or before the given date.  (Written from
the specification's words, to be compared with `fetch_incomplete_todos`.) -/
def incomplete_due_by (q : Date) (t : Todo) : Bool :=
  !t.completed && match t.due_date with
    | some d => Date.le d q
    | none => false

/-- A browsing state with given cursors. -/
def sample_browse_state (lc tc : Option Nat) : UiState :=
  { init_state with lists_cursor := lc, todos_cursor := tc }

/-- A sample list record. -/
def sample_todo_list : TodoList := { id := some 1, title := "home" }

/-- A sample in-memory todo. -/
def sample_todo : Todo :=
  { id := some 1, list_id := 1, title := "buy milk", todo_descr := none
    due_date := none, completed := false, completed_date := none
    dependencies := [] }

/-- A sample stored row that is not completed (fresh from `add_todo`). -/
def sample_incomplete_row : TodoRow :=
  { id := 1, list_id := 1, title := "buy milk", row_descr := none
    due_date := none, completed := false, completed_date := none }

/-- A sample stored row that is completed, with a stored completion date. -/
def sample_completed_row : TodoRow :=
  { id := 1, list_id := 1, title := "buy milk", row_descr := none
    due_date := none, completed := true, completed_date := some "2020-05-05" }

/-- A sample clock reading. -/
def sample_now : DateTime := { date := ⟨2024, 1, 1⟩, hour := 12, minute := 0, second := 0 }

/-- Another sample clock reading. -/
def sample_now2 : DateTime := { date := ⟨2024, 6, 5⟩, hour := 9, minute := 30, second := 0 }

/-- A stored row with a due date, not completed. -/
def due_row : TodoRow :=
  { id := 2, list_id := 1, title := "pay rent", row_descr := none
    due_date := some "2024-01-05", completed := false, completed_date := none }

/-- A stored row with a due date, already completed. -/
def done_row : TodoRow :=
  { id := 3, list_id := 1, title := "done", row_descr := none
    due_date := some "2024-01-01", completed := true, completed_date := none }

/-- A stored row whose due-date text is not a date (reachable by editing
the database out of band, which spec §5 contemplates). -/
def bad_due_row : TodoRow :=
  { id := 4, list_id := 1, title := "bad", row_descr := none
    due_date := some "1", completed := false, completed_date := none }

/-- A stored row whose due date is past year 9999 — storable by this
program itself (a large due-date offset), rendered by chrono with a
leading sign. -/
def far_due_row : TodoRow :=
  { id := 5, list_id := 1, title := "far", row_descr := none
    due_date := some "+10240-06-05", completed := false, completed_date := none }

/-- A field-menu state with staged values, used for concrete save runs. -/
def staged_state : UiState :=
  { init_state with todo_title := "T", todo_descr := "D",
                    todo_due_date := some ⟨2024, 1, 2⟩ }

/-- A todo of the specification's sort example (§8). -/
def ex_todo (n : Nat) (due : Option Date) (completed : Bool) : Todo :=
  { id := some n, list_id := 1, title := "", todo_descr := none
    due_date := due, completed := completed, completed_date := none
    dependencies := [] }

/-- §8 example input: `[ (due=2024-01-10, incomplete), (due=none,
incomplete), (due=2024-01-05, incomplete), (due=2024-01-01, completed) ]`. -/
def ex_input : List Todo :=
  [ex_todo 1 (some ⟨2024, 1, 10⟩) false,
   ex_todo 2 none false,
   ex_todo 3 (some ⟨2024, 1, 5⟩) false,
   ex_todo 4 (some ⟨2024, 1, 1⟩) true]

/-- §8 expected output order. -/
def ex_output : List Todo :=
  [ex_todo 3 (some ⟨2024, 1, 5⟩) false,
   ex_todo 1 (some ⟨2024, 1, 10⟩) false,
   ex_todo 2 none false,
   ex_todo 4 (some ⟨2024, 1, 1⟩) true]

/-! ## Theorems -/

/-! ### Facts about the textual date formats -/

lemma digit_char_toNat {n : Nat} (h : n ≤ 9) : (digit_char n).toNat = 48 + n := by
  interval_cases n <;> decide

lemma digit_char_mod_toNat (n : Nat) : (digit_char (n % 10)).toNat = 48 + n % 10 :=
  digit_char_toNat (by omega)

lemma digit_char_isDigit {n : Nat} (h : n ≤ 9) : (digit_char n).isDigit = true := by
  interval_cases n <;> decide

lemma digit_char_mod_isDigit (n : Nat) : (digit_char (n % 10)).isDigit = true :=
  digit_char_isDigit (by omega)

lemma digit_char_mod_ne_plus (n : Nat) : digit_char (n % 10) ≠ '+' := by
  intro h
  have h2 := digit_char_mod_toNat n
  rw [h] at h2
  have h3 : (43 : Nat) = 48 + n % 10 := h2
  omega

lemma days_in_month_le (y m : Nat) : Date.days_in_month y m ≤ 31 := by
  unfold Date.days_in_month
  split_ifs <;> omega

/-- No `NaiveDateTime` rendering ever parses back as a `%Y-%m-%d` date:
the trailing ` HH:MM:SS` is rejected. -/
lemma parse_datetime_none (dt : DateTime) :
    parse_date_ymd (naive_datetime_to_string dt) = none := by
  obtain ⟨⟨y, m, d⟩, hh, mi, ss⟩ := dt
  unfold parse_date_ymd naive_datetime_to_string date_chars pad4 pad2
  simp only [List.cons_append, List.nil_append]
  rw [if_neg (digit_char_mod_ne_plus _)]
  simp [take_digits, parse_ymd_fields, digit_char_mod_isDigit]

/-- Parsing back a rendered (4-digit-year) valid date returns the date. -/
lemma parse_date_to_string {d : Date} (hv : d.valid) (hy : d.year ≤ 9999) :
    parse_date_ymd (date_to_string d) = some d := by
  obtain ⟨hm, hm', hd, hd'⟩ := hv
  cases d with
  | mk y m dd =>
    simp only at hm hm' hd hd' hy
    have hdd31 : dd ≤ 31 := le_trans hd' (days_in_month_le y m)
    unfold parse_date_ymd date_to_string date_chars pad4 pad2
    simp only [List.cons_append, List.nil_append]
    rw [if_neg (digit_char_mod_ne_plus _)]
    simp only [take_digits, parse_ymd_fields, digits_to_nat, List.foldl,
      digit_char_mod_isDigit, digit_char_mod_toNat, if_true, ne_eq,
      reduceCtorEq, not_false_eq_true, ite_false, ite_true, List.cons.injEq,
      not_true_eq_false, if_false]
    split_ifs with hcond
    · simp only [Option.some.injEq, Date.mk.injEq]
      refine ⟨by omega, by omega, by omega⟩
    · exfalso
      apply hcond
      refine ⟨by omega, by omega, by omega, ?_⟩
      convert hd' using 2 <;> omega

/-! ### C1: cursor decrement on `k` -/

/-- C1 counterexample: with the cursor at `Some(0)`, `todos_move_up` sets
it to `None` — it does not stay at `Some(0)` as the claim states — and
`lists_move_up` behaves the same way. -/
theorem c1_counterexample :
    (todos_move_up (sample_browse_state none (some 0))).todos_cursor = none ∧
    (todos_move_up (sample_browse_state none (some 0))).todos_cursor ≠ some 0 ∧
    (lists_move_up (sample_browse_state (some 0) none)).lists_cursor = none := by
  decide

/-- C1 (amended): `move_up` on `Some(i+1)` decrements to `Some(i)`; on
`Some(0)` it wraps the cursor to unset (`None`) rather than staying at 0;
on an unset cursor it selects `Some(0)` unconditionally (also when the
sequence is empty — neither function consults the length).  This holds
identically for the todos pane and the lists pane. -/
theorem c1_move_up_behavior (s : UiState) :
    (s.todos_cursor = some 0 → (todos_move_up s).todos_cursor = none) ∧
    (∀ i, s.todos_cursor = some (i + 1) → (todos_move_up s).todos_cursor = some i) ∧
    (s.todos_cursor = none → (todos_move_up s).todos_cursor = some 0) ∧
    (s.lists_cursor = some 0 → (lists_move_up s).lists_cursor = none) ∧
    (∀ i, s.lists_cursor = some (i + 1) → (lists_move_up s).lists_cursor = some i) ∧
    (s.lists_cursor = none → (lists_move_up s).lists_cursor = some 0) := by
  refine ⟨?_, ?_, ?_, ?_, ?_, ?_⟩
  · intro h; simp [todos_move_up, h]
  · intro i h; simp [todos_move_up, h]
  · intro h; simp [todos_move_up, h]
  · intro h; simp [lists_move_up, h]
  · intro i h; simp [lists_move_up, h]
  · intro h; simp [lists_move_up, h]

/-- C1 witness: concrete instances of `c1_move_up_behavior`. -/
theorem c1_witness :
    (todos_move_up (sample_browse_state none (some 5))).todos_cursor = some 4 ∧
    (lists_move_up (sample_browse_state none none)).lists_cursor = some 0 :=
  ⟨(c1_move_up_behavior (sample_browse_state none (some 5))).2.1 4 rfl,
   (c1_move_up_behavior (sample_browse_state none none)).2.2.2.2.2 rfl⟩

/-! ### C2: cursor stays in range -/

/-- C2 counterexample: over the empty sequence, a single `move_up` from an
unset cursor sets it to `Some(0)`, so the cursor does not stay `None` for
`length = 0` and `0` is not `< length`. -/
theorem c2_counterexample :
    (run_todo_moves [] (sample_browse_state none none) [.up]).todos_cursor = some 0 ∧
    ¬((run_todo_moves [] (sample_browse_state none none) [.up]).todos_cursor = none ∨
      ∃ i, (run_todo_moves [] (sample_browse_state none none) [.up]).todos_cursor = some i ∧
        i < ([] : List Todo).length) := by
  have hv : (run_todo_moves [] (sample_browse_state none none) [.up]).todos_cursor = some 0 := rfl
  refine ⟨hv, ?_⟩
  rintro (h | ⟨i, hi, hlt⟩)
  · rw [hv] at h; cases h
  · rw [hv] at hi
    cases hi
    simp at hlt

/-- C2 (amended): over a non-empty sequence (of `usize`-representable
length), any sequence of `move_up`/`move_down` calls starting from an
unset cursor keeps the cursor `None` or at an index `i < length`; over the
empty sequence the very first call instead sets the cursor to `Some(0)`
(see the counterexample).  Both panes behave alike. -/
lemma run_todo_moves_inv (todos : List Todo)
    (h1 : 0 < todos.length) (h2 : todos.length < 2 ^ 64) (cmds : List MoveCmd) :
    ∀ s : UiState,
      (s.todos_cursor = none ∨ ∃ i, s.todos_cursor = some i ∧ i < todos.length) →
      ((run_todo_moves todos s cmds).todos_cursor = none ∨
        ∃ i, (run_todo_moves todos s cmds).todos_cursor = some i ∧ i < todos.length) := by
  have hsub : usize_sub_one todos.length = todos.length - 1 := by
    unfold usize_sub_one
    have hp : (2 : Nat) ^ 64 = 18446744073709551616 := by norm_num
    omega
  induction cmds with
  | nil => exact fun s hu => hu
  | cons c rest ih =>
    intro s hu
    cases c
    · refine ih (todos_move_up s) ?_
      rcases hu with hnone | ⟨i, hi, hlt⟩
      · exact Or.inr ⟨0, by simp [todos_move_up, hnone], h1⟩
      · cases i with
        | zero => exact Or.inl (by simp [todos_move_up, hi])
        | succ j => exact Or.inr ⟨j, by simp [todos_move_up, hi], by omega⟩
    · refine ih (todos_move_down s todos) ?_
      rcases hu with hnone | ⟨i, hi, hlt⟩
      · exact Or.inr ⟨0, by simp [todos_move_down, hnone], h1⟩
      · exact Or.inr ⟨min (i + 1) (todos.length - 1),
          by simp [todos_move_down, hi, hsub], by omega⟩

lemma run_list_moves_inv (lists : List TodoList)
    (h1 : 0 < lists.length) (h2 : lists.length < 2 ^ 64) (cmds : List MoveCmd) :
    ∀ s : UiState,
      (s.lists_cursor = none ∨ ∃ i, s.lists_cursor = some i ∧ i < lists.length) →
      ((run_list_moves lists s cmds).lists_cursor = none ∨
        ∃ i, (run_list_moves lists s cmds).lists_cursor = some i ∧ i < lists.length) := by
  have hsub : usize_sub_one lists.length = lists.length - 1 := by
    unfold usize_sub_one
    have hp : (2 : Nat) ^ 64 = 18446744073709551616 := by norm_num
    omega
  induction cmds with
  | nil => exact fun s hu => hu
  | cons c rest ih =>
    intro s hu
    cases c
    · refine ih (lists_move_up s) ?_
      rcases hu with hnone | ⟨i, hi, hlt⟩
      · exact Or.inr ⟨0, by simp [lists_move_up, hnone], h1⟩
      · cases i with
        | zero => exact Or.inl (by simp [lists_move_up, hi])
        | succ j => exact Or.inr ⟨j, by simp [lists_move_up, hi], by omega⟩
    · refine ih (lists_move_down s lists) ?_
      rcases hu with hnone | ⟨i, hi, hlt⟩
      · exact Or.inr ⟨0, by simp [lists_move_down, hnone], h1⟩
      · exact Or.inr ⟨min (i + 1) (lists.length - 1),
          by simp [lists_move_down, hi, hsub], by omega⟩

/-- C2 (amended): over a non-empty sequence (of `usize`-representable
length), any sequence of `move_up`/`move_down` calls starting from an
unset cursor keeps the cursor `None` or at an index `i < length`; over the
empty sequence the very first call instead sets the cursor to `Some(0)`
(see the counterexample).  Both panes behave alike. -/
theorem c2_cursor_in_range (todos : List Todo) (lists : List TodoList)
    (s t : UiState)
    (h1 : 0 < todos.length) (h2 : todos.length < 2 ^ 64)
    (h3 : 0 < lists.length) (h4 : lists.length < 2 ^ 64)
    (hs : s.todos_cursor = none) (ht : t.lists_cursor = none)
    (cmds cmds' : List MoveCmd) :
    ((run_todo_moves todos s cmds).todos_cursor = none ∨
      ∃ i, (run_todo_moves todos s cmds).todos_cursor = some i ∧ i < todos.length) ∧
    ((run_list_moves lists t cmds').lists_cursor = none ∨
      ∃ i, (run_list_moves lists t cmds').lists_cursor = some i ∧ i < lists.length) :=
  ⟨run_todo_moves_inv todos h1 h2 cmds s (Or.inl hs),
   run_list_moves_inv lists h3 h4 cmds' t (Or.inl ht)⟩

/-- C2 witness: a concrete run of `c2_cursor_in_range`. -/
theorem c2_witness :
    ((run_todo_moves [sample_todo] init_state [.down, .down, .up]).todos_cursor = none ∨
      ∃ i, (run_todo_moves [sample_todo] init_state [.down, .down, .up]).todos_cursor = some i ∧
        i < [sample_todo].length) ∧
    ((run_list_moves [sample_todo_list] init_state [.down]).lists_cursor = none ∨
      ∃ i, (run_list_moves [sample_todo_list] init_state [.down]).lists_cursor = some i ∧
        i < [sample_todo_list].length) :=
  c2_cursor_in_range [sample_todo] [sample_todo_list] init_state init_state
    (by decide) (by norm_num) (by decide) (by norm_num) rfl rfl
    [.down, .down, .up] [.down]

/-! ### C5: committing the due-date field -/

/-- C5 counterexample: the buffer `"10000000000"` parses successfully as
a non-negative integer, but `today + 10000000000 days` passes
`NaiveDate::MAX`, so `checked_add_days` returns `None` and the source
panics at `.expect("in range")` — it neither stages a due date nor
transitions to the field menu as the claim states. -/
theorem c5_counterexample :
    parse_u64 "10000000000" = some 10000000000 ∧
    step_create ([] : List TodoList) [] ⟨2024, 1, 1⟩
        { init_state with input := "10000000000" } .enter (some .dueDate) none =
      .panic ∧
    ∀ (s' : UiState) (effs : List Effect),
      step_create ([] : List TodoList) [] ⟨2024, 1, 1⟩
          { init_state with input := "10000000000" } .enter (some .dueDate) none ≠
        .next s' effs := by
  have hp : step_create ([] : List TodoList) [] ⟨2024, 1, 1⟩
      { init_state with input := "10000000000" } .enter (some .dueDate) none =
    .panic := by decide
  refine ⟨by decide, hp, ?_⟩
  intro s' effs h
  rw [hp] at h
  cases h

/-- C5 (amended): pressing enter while the DueDate field is active parses
the buffer as a non-negative (`u64`) integer `N`; on success, when
`today + N days` is within chrono's representable range, it stages that
date, clears the buffer and transitions to the field menu — when it is
out of range the program instead panics at `.expect("in range")`; on
parse failure it stages no due date, clears the buffer and transitions to
the field menu.  With today = 2024-01-01 the input `"3"` stages
2024-01-04 and the input `"abc"` stages none. -/
theorem c5_due_date_enter (lists : List TodoList) (todos : List Todo)
    (now : Date) (s : UiState) (e : Option Nat) :
    (∀ n due, parse_u64 s.input = some n → now.checked_add_days n = some due →
      step_create lists todos now s .enter (some .dueDate) e =
        .next { s with
          todo_due_date := some due
          input := ""
          appstate := .create none e } []) ∧
    (∀ n, parse_u64 s.input = some n → now.checked_add_days n = none →
      step_create lists todos now s .enter (some .dueDate) e = .panic) ∧
    (parse_u64 s.input = none →
      step_create lists todos now s .enter (some .dueDate) e =
        .next { s with
          todo_due_date := none
          input := ""
          appstate := .create none e } []) ∧
    parse_u64 "3" = some 3 ∧
    Date.checked_add_days ⟨2024, 1, 1⟩ 3 = some ⟨2024, 1, 4⟩ ∧
    parse_u64 "abc" = none ∧
    (step_create lists todos ⟨2024, 1, 1⟩ { init_state with input := "3" }
        .enter (some .dueDate) e =
      .next { init_state with
        todo_due_date := some ⟨2024, 1, 4⟩
        appstate := .create none e } []) ∧
    (step_create lists todos ⟨2024, 1, 1⟩ { init_state with input := "abc" }
        .enter (some .dueDate) e =
      .next { init_state with appstate := .create none e } []) := by
  refine ⟨?_, ?_, ?_, by decide, by decide, by decide, ?_, ?_⟩
  · intro n due h1 h2
    simp [step_create, h1, h2]
  · intro n h1 h2
    simp [step_create, h1, h2]
  · intro h1
    simp [step_create, h1]
  · show StepResult.next _ _ = _
    congr 1
  · show StepResult.next _ _ = _
    congr 1

/-- C5 witness: a concrete in-range run of `c5_due_date_enter`. -/
theorem c5_witness :
    step_create ([] : List TodoList) [] ⟨2024, 1, 1⟩
        { init_state with input := "3" } .enter (some .dueDate) none =
      .next { { init_state with input := "3" } with
        todo_due_date := some ⟨2024, 1, 4⟩
        input := ""
        appstate := .create none none } [] :=
  (c5_due_date_enter [] [] ⟨2024, 1, 1⟩ { init_state with input := "3" } none).1
    3 ⟨2024, 1, 4⟩ (by decide) (by decide)

/-! ### C7: saving an edited todo -/

/-- C7: pressing `s` in the field menu with `editId = Some(i)` persists an
update of the todo at position `i` carrying the staged title, description
and due date, leaves its `id`, `list_id`, `completed` and `completed_date`
untouched, clears the staged fields and returns to browsing. -/
theorem c7_save_existing_todo (lists : List TodoList) (todos : List Todo)
    (now : Date) (s : UiState) (i : Nat) (h : i < todos.length) :
    step_create lists todos now s (.char 's') none (some i) =
      .next { s with todo_title := "", todo_descr := "", todo_due_date := none,
                     appstate := .list none }
        [.update_todo_eff
          { todos.get ⟨i, h⟩ with
            due_date := s.todo_due_date
            title := s.todo_title
            todo_descr := some s.todo_descr }] ∧
    ({ todos.get ⟨i, h⟩ with
        due_date := s.todo_due_date
        title := s.todo_title
        todo_descr := some s.todo_descr } : Todo).id = (todos.get ⟨i, h⟩).id ∧
    ({ todos.get ⟨i, h⟩ with
        due_date := s.todo_due_date
        title := s.todo_title
        todo_descr := some s.todo_descr } : Todo).list_id = (todos.get ⟨i, h⟩).list_id ∧
    ({ todos.get ⟨i, h⟩ with
        due_date := s.todo_due_date
        title := s.todo_title
        todo_descr := some s.todo_descr } : Todo).completed = (todos.get ⟨i, h⟩).completed ∧
    ({ todos.get ⟨i, h⟩ with
        due_date := s.todo_due_date
        title := s.todo_title
        todo_descr := some s.todo_descr } : Todo).completed_date =
      (todos.get ⟨i, h⟩).completed_date := by
  refine ⟨?_, rfl, rfl, rfl, rfl⟩
  simp [step_create, List.getElem?_eq_getElem h]

/-- C7 witness: saving the staged fields onto the only todo of a
one-element fetched sequence. -/
theorem c7_witness :
    step_create ([] : List TodoList) [sample_todo] ⟨2024, 1, 1⟩
        staged_state (.char 's') none (some 0) =
      .next { staged_state with todo_title := "", todo_descr := "",
                                todo_due_date := none, appstate := .list none }
        [.update_todo_eff
          { [sample_todo].get ⟨0, by decide⟩ with
            due_date := staged_state.todo_due_date
            title := staged_state.todo_title
            todo_descr := some staged_state.todo_descr }] :=
  (c7_save_existing_todo [] [sample_todo] ⟨2024, 1, 1⟩ staged_state 0 (by decide)).1

/-! ### C9: abandoning the form keeps the staged fields -/

/-- C9: `esc` or `q` in the field menu returns to `Browsing(None)` leaving
the staged title, description and due date (and the raw input buffer)
untouched, and a subsequent `N` (with a list selected) re-enters the form
with all of them still present. -/
theorem c9_abandon_preserves_staged (lists : List TodoList) (todos : List Todo)
    (now : Date) (s : UiState) (e : Option Nat) (detail : Option Nat)
    (h : s.lists_cursor.isSome = true) :
    step_create lists todos now s .esc none e =
      .next { s with appstate := .list none } [] ∧
    step_create lists todos now s (.char 'q') none e =
      .next { s with appstate := .list none } [] ∧
    step_browse lists todos s (.char 'N') detail =
      .next { s with appstate := .create (some .title) none } [] := by
  refine ⟨rfl, rfl, ?_⟩
  have e1 : step_browse lists todos s (.char 'N') detail =
      if s.lists_cursor.isSome then
        .next { s with appstate := .create (some .title) none } []
      else .next s [] := rfl
  rw [e1, h]
  rfl

/-- C9 witness: abandoning and re-entering with staged values present. -/
theorem c9_witness :
    step_create ([] : List TodoList) [] ⟨2024, 1, 1⟩
        { init_state with todo_title := "T", lists_cursor := some 0 }
        .esc none none =
      .next { { init_state with todo_title := "T", lists_cursor := some 0 } with
              appstate := .list none } [] ∧
    step_browse ([] : List TodoList) []
        { init_state with todo_title := "T", lists_cursor := some 0 }
        (.char 'N') none =
      .next { { init_state with todo_title := "T", lists_cursor := some 0 } with
              appstate := .create (some .title) none } [] := by
  have h := c9_abandon_preserves_staged ([] : List TodoList) [] ⟨2024, 1, 1⟩
    { init_state with todo_title := "T", lists_cursor := some 0 } none none rfl
  exact ⟨h.1, h.2.2⟩

/-! ### C3: the completion-date invariant across toggle and fetch -/

/-- C3 (code bug): `toggle_todo_completion` stores
`Local::now().naive_local().to_string()` — a `NaiveDateTime` string of the
shape `YYYY-MM-DD HH:MM:SS` — into `completed_date`, but the row parser of
`fetch_todos` reads `completed_date` with the date-only format `%Y-%m-%d`,
which chrono rejects on trailing input.  So no `NaiveDateTime` string ever
parses back, and a todo toggled complete is fetched with
`completed = true` but `completed_date = None`, violating the claimed
invariant. -/
theorem c3_completed_date_lost :
    (∀ dt : DateTime, parse_date_ymd (naive_datetime_to_string dt) = none) ∧
    fetch_todos 1 (toggle_todo_completion sample_now 1 true [sample_incomplete_row]) =
      [{ id := some 1, list_id := 1, title := "buy milk", todo_descr := none,
         due_date := none, completed := true, completed_date := none,
         dependencies := [] }] ∧
    (∃ t ∈ fetch_todos 1 (toggle_todo_completion sample_now 1 true [sample_incomplete_row]),
        t.completed = true ∧ t.completed_date = none) := by
  refine ⟨parse_datetime_none, by decide, by decide⟩

/-! ### C6: toggling twice round-trips -/

/-- C6 counterexample: on a todo that is already completed with a stored
completion date, toggling twice sets `completed_date` to the time of the
second toggle, not back to its original value — the round trip on the
`(completed, completed_date)` pair fails. -/
theorem c6_counterexample :
    toggle_op sample_now2 1 (toggle_op sample_now 1 [sample_completed_row]) =
      [{ sample_completed_row with completed_date := some "2024-06-05 09:30:00" }] ∧
    some "2024-06-05 09:30:00" ≠ sample_completed_row.completed_date := by
  decide

/-- C6 (amended): toggling twice always restores `completed`; and on a
todo that was incomplete (so, by the intended invariant, had no stored
completion date) the stored row — in particular the
`(completed, completed_date)` pair — is restored exactly. -/
theorem c6_toggle_roundtrip (r : TodoRow) (dt1 dt2 : DateTime) :
    (toggle_op dt2 r.id (toggle_op dt1 r.id [r])).map (fun x => x.completed) =
      [r.completed] ∧
    (r.completed = false → r.completed_date = none →
      toggle_op dt2 r.id (toggle_op dt1 r.id [r]) = [r]) := by
  cases r with
  | mk id list_id title row_descr due_date completed completed_date =>
    cases completed <;>
      simp_all [toggle_op, toggle_todo_completion, List.find?]

/-- C6 witness: the round trip on a fresh incomplete row. -/
theorem c6_witness :
    (toggle_op sample_now2 sample_incomplete_row.id
        (toggle_op sample_now sample_incomplete_row.id [sample_incomplete_row])).map
        (fun x => x.completed) = [sample_incomplete_row.completed] ∧
    toggle_op sample_now2 sample_incomplete_row.id
        (toggle_op sample_now sample_incomplete_row.id [sample_incomplete_row]) =
      [sample_incomplete_row] :=
  ⟨(c6_toggle_roundtrip sample_incomplete_row sample_now sample_now2).1,
   (c6_toggle_roundtrip sample_incomplete_row sample_now sample_now2).2 rfl rfl⟩

/-! ### C10: the new-todo save path always has a selected list -/

lemma appstate_todos_move_up (s : UiState) :
    (todos_move_up s).appstate = s.appstate ∧
    (todos_move_up s).lists_cursor = s.lists_cursor := by
  cases hc : s.todos_cursor <;> simp [todos_move_up, hc]

lemma appstate_lists_move_up (s : UiState) :
    (lists_move_up s).appstate = s.appstate := by
  cases hc : s.lists_cursor <;> simp [lists_move_up, hc]

lemma appstate_todos_move_down (s : UiState) (todos : List Todo) :
    (todos_move_down s todos).appstate = s.appstate ∧
    (todos_move_down s todos).lists_cursor = s.lists_cursor := by
  cases hc : s.todos_cursor <;> simp [todos_move_down, hc]

lemma appstate_lists_move_down (s : UiState) (lists : List TodoList) :
    (lists_move_down s lists).appstate = s.appstate := by
  cases hc : s.lists_cursor <;> simp [lists_move_down, hc]

lemma toggle_todo_next {s : UiState} {todos : List Todo} {s' : UiState}
    {effs : List Effect} (h : toggle_todo s todos = .next s' effs) : s' = s := by
  unfold toggle_todo at h
  repeat' split at h
  all_goals cases h
  all_goals rfl

lemma browse_detail_inv {s s' : UiState} {detail0 detail : Option Nat}
    {effs : List Effect}
    (hsapp : s.appstate = .list detail0)
    (h : browse_detail s detail = .next s' effs) :
    ∀ f, s'.appstate = .create f none → s'.lists_cursor.isSome = true := by
  intro f hf
  unfold browse_detail at h
  repeat' split at h
  all_goals cases h
  all_goals simp_all

lemma browse_edit_inv {todos : List Todo} {s s' : UiState}
    {detail0 : Option Nat} {effs : List Effect}
    (hsapp : s.appstate = .list detail0)
    (h : browse_edit todos s = .next s' effs) :
    ∀ f, s'.appstate = .create f none → s'.lists_cursor.isSome = true := by
  intro f hf
  unfold browse_edit at h
  repeat' split at h
  all_goals cases h
  all_goals simp_all

lemma browse_new_inv {s s' : UiState} {detail0 : Option Nat} {effs : List Effect}
    (hsapp : s.appstate = .list detail0)
    (h : browse_new s = .next s' effs) :
    ∀ f, s'.appstate = .create f none → s'.lists_cursor.isSome = true := by
  intro f hf
  unfold browse_new at h
  repeat' split at h
  all_goals cases h
  all_goals simp_all

lemma browse_delete_inv {lists : List TodoList} {todos : List Todo}
    {s s' : UiState} {detail0 : Option Nat} {effs : List Effect}
    (hsapp : s.appstate = .list detail0)
    (h : browse_delete lists todos s = .next s' effs) :
    ∀ f, s'.appstate = .create f none → s'.lists_cursor.isSome = true := by
  intro f hf
  unfold browse_delete at h
  repeat' split at h
  all_goals cases h
  all_goals simp_all

lemma browse_focus_lists_inv {s s' : UiState} {detail0 : Option Nat}
    {effs : List Effect}
    (hsapp : s.appstate = .list detail0)
    (h : browse_focus_lists s = .next s' effs) :
    ∀ f, s'.appstate = .create f none → s'.lists_cursor.isSome = true := by
  intro f hf
  unfold browse_focus_lists at h
  repeat' split at h
  all_goals cases h
  all_goals simp_all

lemma browse_focus_todos_inv {lists : List TodoList} {todos : List Todo}
    {s s' : UiState} {detail0 : Option Nat} {effs : List Effect}
    (hsapp : s.appstate = .list detail0)
    (h : browse_focus_todos lists todos s = .next s' effs) :
    ∀ f, s'.appstate = .create f none → s'.lists_cursor.isSome = true := by
  intro f hf
  unfold browse_focus_todos at h
  repeat' split at h
  all_goals first
    | cases h
    | (have hs' := toggle_todo_next h; subst hs')
  all_goals simp_all

lemma browse_space_inv {todos : List Todo} {s s' : UiState}
    {detail0 : Option Nat} {effs : List Effect}
    (hsapp : s.appstate = .list detail0)
    (h : browse_space todos s = .next s' effs) :
    ∀ f, s'.appstate = .create f none → s'.lists_cursor.isSome = true := by
  intro f hf
  unfold browse_space at h
  repeat' split at h
  all_goals first
    | cases h
    | (have hs' := toggle_todo_next h; subst hs')
  all_goals simp_all

set_option maxHeartbeats 2000000 in
lemma step_browse_inv (lists : List TodoList) (todos : List Todo)
    (s s' : UiState) (k : Key) (detail : Option Nat) (effs : List Effect)
    (hsapp : s.appstate = .list detail)
    (hstep : step_browse lists todos s k detail = .next s' effs) :
    ∀ f, s'.appstate = .create f none → s'.lists_cursor.isSome = true := by
  intro f hf
  unfold step_browse at hstep
  repeat' split at hstep
  all_goals first
    | cases hstep
    | exact browse_detail_inv hsapp hstep f hf
    | exact browse_edit_inv hsapp hstep f hf
    | exact browse_new_inv hsapp hstep f hf
    | exact browse_delete_inv hsapp hstep f hf
    | exact browse_focus_lists_inv hsapp hstep f hf
    | exact browse_focus_todos_inv hsapp hstep f hf
    | exact browse_space_inv hsapp hstep f hf
  all_goals simp_all [appstate_todos_move_up, appstate_lists_move_up,
    appstate_todos_move_down, appstate_lists_move_down]

lemma step_create_inv (lists : List TodoList) (todos : List Todo) (now : Date)
    (s s' : UiState) (k : Key) (field : Option InputField) (e : Option Nat)
    (effs : List Effect)
    (hsapp : s.appstate = .create field e)
    (hinv : ∀ f, s.appstate = .create f none → s.lists_cursor.isSome = true)
    (hstep : step_create lists todos now s k field e = .next s' effs) :
    ∀ f, s'.appstate = .create f none → s'.lists_cursor.isSome = true := by
  intro f hf
  unfold step_create at hstep
  repeat' split at hstep
  all_goals cases hstep
  all_goals simp_all

lemma step_create_list_inv (s s' : UiState) (k : Key) (field : Option InputField)
    (effs : List Effect)
    (hsapp : s.appstate = .createList field)
    (hstep : step_create_list s k field = .next s' effs) :
    ∀ f, s'.appstate = .create f none → s'.lists_cursor.isSome = true := by
  intro f hf
  unfold step_create_list at hstep
  repeat' split at hstep
  all_goals cases hstep
  all_goals simp_all

/-- C10: in every reachable state, being in the todo form in creation mode
(`Create(_, None)`) implies the lists cursor is set — so the save path for
a new todo, which `.expect`s the selection (`"Need list id to create
todo"`), never hits a `None` there: the form is only entered by `N`/`E`
with a list selected, and no transition available inside the form clears
the lists cursor. -/
theorem c10_create_has_selection (s : UiState) (h : Reachable s) :
    ∀ f, s.appstate = .create f none → s.lists_cursor.isSome = true := by
  induction h with
  | init =>
    intro f hf
    simp [init_state] at hf
  | step lists todos now t t' k effs hr hstep ih =>
    rcases hsapp : t.appstate with detail | ⟨field, e⟩ | field
    · refine step_browse_inv lists todos t t' k detail effs hsapp ?_
      rw [step, hsapp] at hstep
      exact hstep
    · refine step_create_inv lists todos now t t' k field e effs hsapp ih ?_
      rw [step, hsapp] at hstep
      exact hstep
    · refine step_create_list_inv t t' k field effs hsapp ?_
      rw [step, hsapp] at hstep
      exact hstep

/-- C10 witness: a concrete reachable creation-form state (reached by
pressing `j` then `N` from the initial state over a one-list store) has
the lists cursor set. -/
theorem c10_witness :
    ({ sample_browse_state (some 0) none with
        appstate := AppState.create (some InputField.title) none } : UiState).lists_cursor.isSome
      = true := by
  have h0 : Reachable init_state := Reachable.init
  have h1 : Reachable (sample_browse_state (some 0) none) :=
    Reachable.step [sample_todo_list] [] ⟨2024, 1, 1⟩ init_state
      (sample_browse_state (some 0) none) (.char 'j') [] h0 (by decide)
  have h2 : Reachable { sample_browse_state (some 0) none with
      appstate := AppState.create (some InputField.title) none } :=
    Reachable.step [sample_todo_list] [] ⟨2024, 1, 1⟩ (sample_browse_state (some 0) none)
      { sample_browse_state (some 0) none with
        appstate := AppState.create (some InputField.title) none } (.char 'N') [] h1 (by decide)
  exact c10_create_has_selection _ h2 (some InputField.title) rfl

/-! ### C4: three stable sort passes equal one composite-key sort

`Vec::sort_by_key` is a stable sort, embedded as `List.mergeSort` (also
stable).  The composition theorem below is proved through the decorated
(`enum`) characterization of stable sorting from the standard library. -/

lemma bool_le_total : ∀ a b, bool_le a b || bool_le b a := by decide

lemma bool_le_trans : ∀ a b c, bool_le a b → bool_le b c → bool_le a c := by decide

lemma date_le_total (a b : Date) : Date.le a b || Date.le b a := by
  simp only [Date.le, Bool.or_eq_true]
  split_ifs <;> simp only [decide_eq_true_eq] <;> omega

lemma date_le_trans (a b c : Date) :
    Date.le a b → Date.le b c → Date.le a c := by
  intro h1 h2
  simp only [Date.le] at h1 h2 ⊢
  split_ifs at h1 h2 ⊢ <;>
    simp only [decide_eq_true_eq] at h1 h2 ⊢ <;> omega

lemma opt_date_le_total : ∀ a b : Option Date, opt_date_le a b || opt_date_le b a
  | none, _ => by simp [opt_date_le]
  | some _, none => by simp [opt_date_le]
  | some a, some b => by simpa [opt_date_le] using date_le_total a b

lemma opt_date_le_trans : ∀ a b c : Option Date,
    opt_date_le a b → opt_date_le b c → opt_date_le a c
  | none, _, _, _, _ => rfl
  | some _, none, _, h1, _ => by simp [opt_date_le] at h1
  | some _, some _, none, _, h2 => by simp [opt_date_le] at h2
  | some a, some b, some c, h1, h2 => by
    simpa [opt_date_le] using
      date_le_trans a b c (by simpa [opt_date_le] using h1)
        (by simpa [opt_date_le] using h2)

lemma due_key_le_total : ∀ a b : Todo, due_key_le a b || due_key_le b a :=
  fun a b => opt_date_le_total a.due_date b.due_date

lemma due_key_le_trans : ∀ a b c : Todo,
    due_key_le a b → due_key_le b c → due_key_le a c :=
  fun a b c => opt_date_le_trans a.due_date b.due_date c.due_date

lemma no_due_key_le_total : ∀ a b : Todo, no_due_key_le a b || no_due_key_le b a :=
  fun _ _ => bool_le_total _ _

lemma no_due_key_le_trans : ∀ a b c : Todo,
    no_due_key_le a b → no_due_key_le b c → no_due_key_le a c :=
  fun _ _ _ => bool_le_trans _ _ _

lemma completed_key_le_total : ∀ a b : Todo, completed_key_le a b || completed_key_le b a :=
  fun _ _ => bool_le_total _ _

lemma completed_key_le_trans : ∀ a b c : Todo,
    completed_key_le a b → completed_key_le b c → completed_key_le a c :=
  fun _ _ _ => bool_le_trans _ _ _

lemma lex_le_eq_true_iff (le2 le1 : α → α → Bool) (a b : α) :
    lex_le le2 le1 a b = true ↔ (le2 a b ∧ (le2 b a → le1 a b)) := by
  unfold lex_le
  cases h1 : le2 a b <;> cases h2 : le2 b a <;> simp [h1, h2]

lemma lex_le_total (le2 le1 : α → α → Bool)
    (tot2 : ∀ a b, le2 a b || le2 b a) (tot1 : ∀ a b, le1 a b || le1 b a) :
    ∀ a b, lex_le le2 le1 a b || lex_le le2 le1 b a := by
  intro a b
  have h2 := tot2 a b
  have h1 := tot1 a b
  unfold lex_le
  cases hab : le2 a b <;> cases hba : le2 b a <;>
    cases h1ab : le1 a b <;> cases h1ba : le1 b a <;> simp_all

lemma lex_le_trans (le2 le1 : α → α → Bool)
    (tr2 : ∀ a b c, le2 a b → le2 b c → le2 a c)
    (tr1 : ∀ a b c, le1 a b → le1 b c → le1 a c) :
    ∀ a b c, lex_le le2 le1 a b → lex_le le2 le1 b c → lex_le le2 le1 a c := by
  intro a b c h1 h2
  rw [lex_le_eq_true_iff] at h1 h2 ⊢
  obtain ⟨hab, htab⟩ := h1
  obtain ⟨hbc, htbc⟩ := h2
  refine ⟨tr2 a b c hab hbc, fun hca => ?_⟩
  have hba : le2 b a := tr2 b c a hbc hca
  have hcb : le2 c b := tr2 c a b hca hab
  exact tr1 a b c (htab hba) (htbc hcb)

lemma enumLE_lex_of_tie {le2 le1 : α → α → Bool} {x y : Nat × α}
    (h1 : le2 x.2 y.2 = true) (h2 : le2 y.2 x.2 = true) :
    List.enumLE (lex_le le2 le1) x y = List.enumLE le1 x y := by
  simp [List.enumLE, lex_le, h1, h2]

lemma enumLE_lex_of_strict {le2 le1 : α → α → Bool} {x y : Nat × α}
    (h1 : le2 x.2 y.2 = true) (h2 : le2 y.2 x.2 = false) :
    List.enumLE (lex_le le2 le1) x y = true := by
  simp [List.enumLE, lex_le, h1, h2]

lemma enumLE_both_fst {le : α → α → Bool} {x y : Nat × α}
    (h1 : List.enumLE le x y = true) (h2 : List.enumLE le y x = true) :
    x.1 = y.1 := by
  simp only [List.enumLE] at h1 h2
  split_ifs at h1 h2
  simp_all
  omega

lemma pair_sublist_antisymm {x y : α} : ∀ {L : List α},
    L.Nodup → List.Sublist [x, y] L → List.Sublist [y, x] L → x = y := by
  intro L
  induction L with
  | nil =>
    intro _ h _
    exact absurd h (by simp)
  | cons a t ih =>
    intro hnd h1 h2
    cases h1 with
    | cons _ h1' =>
      cases h2 with
      | cons _ h2' => exact ih (List.nodup_cons.mp hnd).2 h1' h2'
      | cons₂ h2' =>
        exact absurd (h1'.subset (by simp)) (List.nodup_cons.mp hnd).1
    | cons₂ h1' =>
      cases h2 with
      | cons _ h2' =>
        exact absurd (h2'.subset (by simp)) (List.nodup_cons.mp hnd).1
      | cons₂ h2' => rfl

lemma sublist_pair_of_mem {x y : α} : ∀ {L : List α},
    x ∈ L → y ∈ L → x ≠ y →
      List.Sublist [x, y] L ∨ List.Sublist [y, x] L := by
  intro L
  induction L with
  | nil =>
    intro h
    exact absurd h (by simp)
  | cons a t ih =>
    intro hx hy hxy
    rcases List.mem_cons.mp hx with rfl | hx'
    · have hy' : y ∈ t := by
        rcases List.mem_cons.mp hy with h | h
        · exact absurd h.symm hxy
        · exact h
      exact Or.inl (List.Sublist.cons₂ x (List.singleton_sublist.mpr hy'))
    · rcases List.mem_cons.mp hy with rfl | hy'
      · exact Or.inr (List.Sublist.cons₂ y (List.singleton_sublist.mpr hx'))
      · rcases ih hx' hy' hxy with h | h
        · exact Or.inl (h.cons a)
        · exact Or.inr (h.cons a)

lemma enum_mem_inj {l : List α} {x y : Nat × α}
    (hx : x ∈ l.enum) (hy : y ∈ l.enum) (h : x.1 = y.1) : x = y := by
  obtain ⟨i, a⟩ := x
  obtain ⟨j, b⟩ := y
  simp only at h
  subst h
  rw [List.mk_mem_enum_iff_getElem?] at hx hy
  rw [hx] at hy
  exact Prod.ext rfl (by simpa using hy)

lemma mergeSort_twice_enum (le1 le2 : α → α → Bool)
    (tr1 : ∀ a b c, le1 a b → le1 b c → le1 a c)
    (tot1 : ∀ a b, le1 a b || le1 b a)
    (tr2 : ∀ a b c, le2 a b → le2 b c → le2 a c)
    (tot2 : ∀ a b, le2 a b || le2 b a) (l : List α) :
    ((l.enum.mergeSort (List.enumLE le1)).mergeSort (fun a b => le2 a.2 b.2)) =
      l.enum.mergeSort (List.enumLE (lex_le le2 le1)) := by
  have hE_nodup : l.enum.Nodup :=
    List.Nodup.of_map Prod.fst (List.nodup_enum_map_fst l)
  have hP_perm : List.Perm (l.enum.mergeSort (List.enumLE le1)) l.enum :=
    List.mergeSort_perm l.enum _
  have hO_perm : List.Perm
      ((l.enum.mergeSort (List.enumLE le1)).mergeSort (fun a b => le2 a.2 b.2))
      (l.enum.mergeSort (List.enumLE le1)) :=
    List.mergeSort_perm _ _
  have hR_perm : List.Perm (l.enum.mergeSort (List.enumLE (lex_le le2 le1))) l.enum :=
    List.mergeSort_perm l.enum _
  have hOE : List.Perm ((l.enum.mergeSort (List.enumLE le1)).mergeSort
      (fun a b => le2 a.2 b.2)) l.enum := hO_perm.trans hP_perm
  have hO_nodup := hOE.symm.nodup hE_nodup
  have hP_sorted := List.sorted_mergeSort
    (fun a b c => List.enumLE_trans tr1 a b c)
    (fun a b => List.enumLE_total tot1 a b) l.enum
  have hO_sorted_r2 := List.sorted_mergeSort
    (fun (a b c : Nat × α) hab hbc => tr2 a.2 b.2 c.2 hab hbc)
    (fun (a b : Nat × α) => tot2 a.2 b.2) (l.enum.mergeSort (List.enumLE le1))
  have hR_sorted := List.sorted_mergeSort
    (fun a b c => List.enumLE_trans (lex_le_trans le2 le1 tr2 tr1) a b c)
    (fun a b => List.enumLE_total (lex_le_total le2 le1 tot2 tot1) a b) l.enum
  have hO_sorted_lex :
      ((l.enum.mergeSort (List.enumLE le1)).mergeSort
        (fun a b => le2 a.2 b.2)).Pairwise
        (fun a b => List.enumLE (lex_le le2 le1) a b = true) := by
    rw [List.pairwise_iff_forall_sublist]
    intro x y hxy
    have hr2 : le2 x.2 y.2 = true :=
      List.pairwise_iff_forall_sublist.mp hO_sorted_r2 hxy
    have hxO : x ∈ (l.enum.mergeSort (List.enumLE le1)).mergeSort
        (fun a b => le2 a.2 b.2) := hxy.subset (by simp)
    have hyO : y ∈ (l.enum.mergeSort (List.enumLE le1)).mergeSort
        (fun a b => le2 a.2 b.2) := hxy.subset (by simp)
    cases htie : le2 y.2 x.2 with
    | false => exact enumLE_lex_of_strict hr2 htie
    | true =>
      have hxney : x ≠ y := by
        intro hcon
        subst hcon
        exact (List.nodup_iff_sublist.mp hO_nodup x) hxy
      have hxP : x ∈ l.enum.mergeSort (List.enumLE le1) := by
        simpa using hxO
      have hyP : y ∈ l.enum.mergeSort (List.enumLE le1) := by
        simpa using hyO
      rcases sublist_pair_of_mem hxP hyP hxney with hP' | hP'
      · have hP1 : List.enumLE le1 x y :=
          List.pairwise_iff_forall_sublist.mp hP_sorted hP'
        rw [enumLE_lex_of_tie hr2 htie]
        exact hP1
      · have hO' : List.Sublist [y, x]
            ((l.enum.mergeSort (List.enumLE le1)).mergeSort
              (fun a b => le2 a.2 b.2)) :=
          List.pair_sublist_mergeSort
            (fun a b c hab hbc => tr2 a.2 b.2 c.2 hab hbc)
            (fun a b => tot2 a.2 b.2) htie hP'
        exact absurd (pair_sublist_antisymm hO_nodup hxy hO') hxney
  refine List.Perm.eq_of_sorted ?_ hO_sorted_lex hR_sorted
    (hOE.trans hR_perm.symm)
  intro a b ha hb hab hba
  have haE : a ∈ l.enum := hOE.subset ha
  have hbE : b ∈ l.enum := (hR_perm.subset (by simpa using hb) : b ∈ l.enum)
  exact enum_mem_inj haE hbE (enumLE_both_fst hab hba)

/-- Two successive stable sorts equal one stable sort by the lexicographic
combination (second-pass key major, first-pass key minor). -/
lemma mergeSort_mergeSort (le1 le2 : α → α → Bool)
    (tr1 : ∀ a b c, le1 a b → le1 b c → le1 a c)
    (tot1 : ∀ a b, le1 a b || le1 b a)
    (tr2 : ∀ a b c, le2 a b → le2 b c → le2 a c)
    (tot2 : ∀ a b, le2 a b || le2 b a) (l : List α) :
    (l.mergeSort le1).mergeSort le2 = l.mergeSort (lex_le le2 le1) := by
  rw [← @List.mergeSort_enum α le1 l]
  have hmap : ((l.enum.mergeSort (List.enumLE le1)).mergeSort
        (fun a b => le2 a.2 b.2)).map (fun x : Nat × α => x.2) =
      ((l.enum.mergeSort (List.enumLE le1)).map
        (fun x : Nat × α => x.2)).mergeSort le2 :=
    List.map_mergeSort (fun a _ b _ => rfl)
  rw [← hmap]
  rw [mergeSort_twice_enum le1 le2 tr1 tot1 tr2 tot2 l]
  exact @List.mergeSort_enum α (lex_le le2 le1) l

/-- C4: the three stable sort passes of `get_todos` (by `due_date`, then
by absence of a due date, then by `completed`) produce exactly the same
order as one single stable sort by the composite key `(completed
ascending, has-no-due-date ascending, due_date ascending)`; and on the §8
example input the resulting order is `[due=2024-01-05, due=2024-01-10,
due=none, completed-one]`. -/
theorem c4_display_sort_refines (todos : List Todo) :
    display_sort todos = display_sort_spec todos ∧
    display_sort ex_input = ex_output := by
  have key : ∀ l : List Todo, display_sort l = display_sort_spec l := by
    intro l
    unfold display_sort display_sort_spec
    rw [mergeSort_mergeSort due_key_le no_due_key_le
      due_key_le_trans due_key_le_total
      no_due_key_le_trans no_due_key_le_total l]
    rw [mergeSort_mergeSort (lex_le no_due_key_le due_key_le) completed_key_le
      (lex_le_trans _ _ no_due_key_le_trans due_key_le_trans)
      (lex_le_total _ _ no_due_key_le_total due_key_le_total)
      completed_key_le_trans completed_key_le_total l]
    rfl
  have htrans : ∀ a b c : Todo,
      composite_le a b → composite_le b c → composite_le a c :=
    fun a b c h1 h2 =>
      lex_le_trans completed_key_le (lex_le no_due_key_le due_key_le)
        completed_key_le_trans
        (lex_le_trans _ _ no_due_key_le_trans due_key_le_trans) a b c h1 h2
  have htot : ∀ a b : Todo, composite_le a b || composite_le b a :=
    fun a b =>
      lex_le_total completed_key_le (lex_le no_due_key_le due_key_le)
        completed_key_le_total
        (lex_le_total _ _ no_due_key_le_total due_key_le_total) a b
  refine ⟨key todos, ?_⟩
  rw [key ex_input]
  unfold display_sort_spec
  refine List.Perm.eq_of_sorted ?_
    (List.sorted_mergeSort htrans htot ex_input) ?_ ?_
  · intro a b ha hb hab hba
    have ha' : a ∈ ex_input := by simpa using ha
    fin_cases ha' <;> fin_cases hb <;> revert hab hba <;> decide
  · decide
  · exact (List.mergeSort_perm ex_input _).trans (by decide)

/-! ### C8: the one-shot incomplete-due-by query -/

/-- On the zero-padded `%Y-%m-%d` strings of (4-digit-year) valid dates,
SQLite's bytewise text order agrees with chronological date order. -/
lemma sqlite_text_le_date (a b : Date)
    (hva : a.valid) (hya : a.year ≤ 9999)
    (hvb : b.valid) (hyb : b.year ≤ 9999) :
    sqlite_text_le (date_to_string a) (date_to_string b) = Date.le a b := by
  obtain ⟨hma, hma', hda, hda'⟩ := hva
  obtain ⟨hmb, hmb', hdb, hdb'⟩ := hvb
  have hda31 := days_in_month_le a.year a.month
  have hdb31 := days_in_month_le b.year b.month
  cases a with
  | mk y1 m1 d1 =>
    cases b with
    | mk y2 m2 d2 =>
      simp only at hma hma' hda hda' hmb hmb' hdb hdb' hya hyb hda31 hdb31
      unfold sqlite_text_le date_to_string date_chars pad4 pad2
      simp only [List.cons_append, List.nil_append]
      simp only [text_lt, digit_char_mod_toNat, Date.le]
      rw [Bool.eq_iff_iff]
      simp only [Bool.not_eq_true']
      split_ifs <;> (try simp_all) <;> omega

/-- C8 counterexample: the claim fails over reachable store states.  A
row whose due-date text is `"1"` sorts below the query string under
BINARY collation and is returned as an incomplete todo with *no* due
date; and a row storing `"+10240-06-05"` — which this program itself
writes for a due date past year 9999 — sorts below every 4-digit date and
is returned although its due date is far *after* the query date. -/
theorem c8_counterexample :
    fetch_incomplete_todos ⟨2024, 6, 1⟩ [bad_due_row, far_due_row] =
      [row_to_todo bad_due_row, row_to_todo far_due_row] ∧
    (row_to_todo bad_due_row).completed = false ∧
    (row_to_todo bad_due_row).due_date = none ∧
    (row_to_todo far_due_row).completed = false ∧
    (row_to_todo far_due_row).due_date = some ⟨10240, 6, 5⟩ ∧
    Date.le ⟨10240, 6, 5⟩ ⟨2024, 6, 1⟩ = false := by
  decide

/-- C8 (amended): restricted to store states whose stored due dates are
the well-formed `%Y-%m-%d` renderings of valid 4-digit-year dates (as
`add_todo`/`update_todo` write for every date through year 9999) and to
4-digit-year query dates, the one-shot query returns exactly the todos
that are not completed and have a due date on or before the given date;
todos with no due date and completed todos are never returned.  Outside
that fragment the original claim fails (see the counterexample). -/
theorem c8_fetch_incomplete_exact (store : List TodoRow) (q : Date)
    (hqv : q.valid) (hqy : q.year ≤ 9999)
    (hwf : ∀ r ∈ store, ∀ s, r.due_date = some s →
      ∃ d, d.valid ∧ d.year ≤ 9999 ∧ s = date_to_string d) :
    fetch_incomplete_todos q store =
      (store.map row_to_todo).filter (incomplete_due_by q) := by
  unfold fetch_incomplete_todos
  rw [List.filter_map]
  have hpq : ∀ r ∈ store,
      (!r.completed &&
        match r.due_date with
        | some s => sqlite_text_le s (date_to_string q)
        | none => false) = (incomplete_due_by q ∘ row_to_todo) r := by
    intro r hr
    cases hdue : r.due_date with
    | none => simp [incomplete_due_by, row_to_todo, hdue]
    | some s =>
      obtain ⟨d, hdv, hdy, rfl⟩ := hwf r hr s hdue
      simp only [incomplete_due_by, row_to_todo, Function.comp_apply, hdue,
        Option.bind_eq_bind, Option.some_bind]
      rw [parse_date_to_string hdv hdy]
      rw [sqlite_text_le_date d q hdv hdy hqv hqy]
  rw [List.filter_congr hpq]

/-- C8 witness: a three-row store (one due and incomplete, one with no
due date, one completed) queried at 2024-06-01. -/
theorem c8_witness :
    fetch_incomplete_todos ⟨2024, 6, 1⟩ [due_row, sample_incomplete_row, done_row] =
      ([due_row, sample_incomplete_row, done_row].map row_to_todo).filter
        (incomplete_due_by ⟨2024, 6, 1⟩) := by
  have h := c8_fetch_incomplete_exact [due_row, sample_incomplete_row, done_row]
    ⟨2024, 6, 1⟩ (by decide) (by decide) ?_
  · exact h
  · intro r hr s hs
    fin_cases hr
    · exact ⟨⟨2024, 1, 5⟩, by decide, by decide, by
        simp only [due_row] at hs
        cases hs
        decide⟩
    · simp [sample_incomplete_row] at hs
    · exact ⟨⟨2024, 1, 1⟩, by decide, by decide, by
        simp only [done_row] at hs
        cases hs
        decide⟩

end TodoTui
